import Mathlib

/-!
# Open Image Denoise: autoencoder filter and the `infer` example driver

A shallow embedding of

* `src/examples/infer.cpp` : file-name derivation (lines 36-41), the image
  bindings (lines 43-58) and the correctness check (lines 82-101);
* `src/core/autoencoder.h` : the state of `AutoencoderFilter` (lines 32-47).

The bodies of `AutoencoderFilter::set1i`, `commit` and `execute` are declared
in the header but defined in a translation unit that is not among the sources;
they are modelled from the specification and marked as such.
-/

namespace Oidn

/-! ## `infer.cpp`, lines 82-101: the correctness check -/

/-- The literal `1e-5` of lines 89 and 96, read as an exact rational. -/
def tol : ℚ := 1 / 100000

/-- Division of line 92 with the divisor checked: `none` is a division by zero. -/
def divChecked (a b : ℚ) : Option ℚ :=
  if b = 0 then none else some (a / b)

/-- Lines 88-94: the error `re` of one element. -/
def relErr (expect actual : ℚ) : Option ℚ :=
  if |expect| < tol ∧ |actual| < tol then
    some 0
  else if expect ≠ 0 then
    (divChecked (expect - actual) expect).map fun q => |q|
  else
    some |expect - actual|

/-- Lines 86-100: one iteration of the loop on the pair `(nerr, maxre)`. The
counter `nerr`, an `int` that grows by at most one per element, is kept as an
unbounded integer. -/
def checkStep (st : Int × ℚ) (expect actual : ℚ) : Option (Int × ℚ) :=
  match relErr expect actual with
  | none => none
  | some re =>
    let maxre := if st.2 < re then re else st.2
    let nerr := if re > tol then st.1 + 1 else st.1
    some (nerr, maxre)

/-- Lines 84-101: the loop over `ref.data` and `output.data`, which have the
same number of elements after the guard of line 76 (the recursion ends with
the shorter list). -/
def checkLoop : List ℚ → List ℚ → Int × ℚ → Option (Int × ℚ)
  | [], _, st => some st
  | _ :: _, [], st => some st
  | expect :: es, actual :: as, st =>
    match checkStep st expect actual with
    | none => none
    | some st1 => checkLoop es as st1

/-- Lines 82-101: `nerr` and `maxre` start at zero. -/
def correctnessCheck (ref output : List ℚ) : Option (Int × ℚ) :=
  checkLoop ref output (0, 0)

/-- The per-element error `re_i` in closed form, with the total division of `ℚ`. -/
def reSpec (expect actual : ℚ) : ℚ :=
  if |expect| < tol ∧ |actual| < tol then 0
  else if expect ≠ 0 then |(expect - actual) / expect|
  else |expect - actual|

/-- The sequence of the `re_i` of two sequences. -/
def reList (ref output : List ℚ) : List ℚ :=
  List.zipWith reSpec ref output

/-! ## `infer.cpp`, lines 36-41: the input and reference file names -/

/-- `std::string::npos`, the largest value of a 64-bit `size_t`. -/
def npos : Nat := 2 ^ 64 - 1

/-- Index of the last occurrence of `c` in `s`, when there is one. -/
def lastIndexOf (c : Char) : List Char → Option Nat
  | [] => none
  | x :: xs =>
    match lastIndexOf c xs with
    | some i => some (i + 1)
    | none => if x = c then some 0 else none

/-- `std::string::find_last_of(char)`: the last position of `c`, `npos` when
`c` does not occur. -/
def find_last_of (s : List Char) (c : Char) : Nat :=
  (lastIndexOf c s).getD npos

/-- `std::string::substr(pos, count)`: the characters
`[pos, pos + min(count, size - pos))`; `none` is the `out_of_range` exception
thrown when `pos > size`. -/
def substr (s : List Char) (pos count : Nat) : Option (List Char) :=
  if pos > s.length then none
  else some ((s.drop pos).take (min count (s.length - pos)))

/-- Lines 36-41 of `main`: the pair `(inputFilename, refFilename)` computed
from `argv` (whose length is `argc`); `none` is an exception of `substr`. -/
def fileNames (argv : List (List Char)) : Option (List Char × List Char) :=
  let argc := argv.length
  let inputFilename := if argc > 1 then argv.getD 1 [] else "test0.tza".toList
  match substr inputFilename 0 (find_last_of inputFilename '.') with
  | none => none
  | some stem =>
    let refFilename := stem ++ "_ref.tza".toList
    let refFilename := if argc > 2 then argv.getD 2 [] else refFilename
    some (inputFilename, refFilename)

/-! ## `infer.cpp`, lines 43-58: the image bindings -/

/-- `sizeof(float)`, the constant `F` of line 54. -/
def F : Nat := 4

/-- The two tensors of `main` whose data the images point into (lines 43, 48). -/
inductive Buffer
  | input
  | output
  deriving DecidableEq, Repr

/-- `oidn::Format`; `Float3` is the only format the sources name. -/
inductive Format
  | Float3
  deriving DecidableEq, Repr

/-- Bytes of one pixel of a format: `Float3` is three floats. -/
def formatSize : Format → Nat
  | Format.Float3 => 3 * F

/-- Modelled from the spec: the Image Descriptor of section 3, the type `Image`
of `autoencoder.h` lines 32-35, whose declaration is not among the sources. -/
structure Image where
  buffer : Buffer
  width : Nat
  height : Nat
  format : Format
  byteOffset : Nat
  bytePixelStride : Nat
  byteRowStride : Nat
  deriving DecidableEq, Repr

/-- Modelled from the spec: the descriptor that
`setImage(name, ptr, format, width, height, byteOffset, byteStride)` of
`OpenImageDenoise/oidn.hpp` (not among the sources) binds. The call passes no
row stride; the images of one buffer share the row stride
`byteStride * width` of a buffer whose rows are contiguous. -/
def mkImage (buffer : Buffer) (format : Format) (width height byteOffset byteStride : Nat) :
    Image :=
  { buffer := buffer, width := width, height := height, format := format,
    byteOffset := byteOffset, bytePixelStride := byteStride,
    byteRowStride := byteStride * width }

/-- Line 55: the `color` image. -/
def colorImage (W H : Nat) : Image :=
  mkImage Buffer.input Format.Float3 W H (0 * F) (9 * F)

/-- Line 56: the `albedo` image. -/
def albedoImage (W H : Nat) : Image :=
  mkImage Buffer.input Format.Float3 W H (3 * F) (9 * F)

/-- Line 57: the `normal` image. -/
def normalImage (W H : Nat) : Image :=
  mkImage Buffer.input Format.Float3 W H (6 * F) (9 * F)

/-- Line 58: the `output` image. -/
def outputImage (W H : Nat) : Image :=
  mkImage Buffer.output Format.Float3 W H (0 * F) (3 * F)

/-- The invariant of the Image Descriptor (spec, section 3). -/
def Image.valid (img : Image) : Prop :=
  img.bytePixelStride ≥ formatSize img.format ∧
  img.byteRowStride ≥ img.bytePixelStride * img.width

instance (img : Image) : Decidable img.valid := by
  unfold Image.valid; infer_instance

/-- Byte address, inside its buffer, of pixel `(x, y)` of an image. -/
def Image.pixelAddr (img : Image) (x y : Nat) : Nat :=
  img.byteOffset + y * img.byteRowStride + x * img.bytePixelStride

/-- The bytes an image addresses for pixel `(x, y)`. -/
def Image.pixelBytes (img : Image) (x y : Nat) : Finset Nat :=
  Finset.Ico (img.pixelAddr x y) (img.pixelAddr x y + formatSize img.format)

/-- The 36-byte record of pixel `(x, y)` in the `H*W*9`-float input buffer. -/
def inputRecord (W x y : Nat) : Finset Nat :=
  Finset.Ico ((y * W + x) * (9 * F)) ((y * W + x) * (9 * F) + 9 * F)

/-! ## `autoencoder.h`: the filter

The fields are those of lines 32-47 of the header. The member functions are
only declared there (lines 52-59); their bodies below follow the
specification, sections 3, 4.3, 4.5, 6 and 7. -/

/-- Modelled from the spec: the error kinds of section 7; the enumeration
`oidn::Error` is not among the sources. -/
inductive Error
  | ConfigurationError
  | InvalidUsage
  | InternalInconsistency
  deriving DecidableEq, Repr

/-- Modelled from the spec: the Network of section 3, which "holds the
channel-width parameter K and the input-set variant that determined its
topology"; `network.h` is not among the sources. The record keeps the input
channel count, the weight set and the image size a network is built for. -/
structure Network where
  inputC : Nat
  weights : Nat
  width : Nat
  height : Nat
  deriving DecidableEq, Repr

/-- Modelled from the spec: the Transfer Function of section 3, a "stateless
mapping parameterized by two independent flags"; `transfer_function.h` is not
among the sources. -/
structure TransferFunction where
  srgb : Bool
  hdr : Bool
  deriving DecidableEq, Repr

/-- Lines 43-47: the two weight pointers; `none` is a null pointer, `some w`
names the weight set pointed to. -/
structure WeightData where
  ldr : Option Nat
  ldr_alb_nrm : Option Nat
  deriving DecidableEq, Repr

/-- Lines 32-47: the state of an `AutoencoderFilter`. An image that is not
bound and a null `shared_ptr` are `none`. -/
structure AutoencoderFilter where
  color : Option Image
  albedo : Option Image
  normal : Option Image
  output : Option Image
  srgb : Bool
  hdr : Bool
  net : Option Network
  transferFunc : Option TransferFunction
  weightData : WeightData
  deriving DecidableEq, Repr

/-- A filter together with what its calls act on: the error channel of the
owning device (the kinds recorded, oldest first) and the contents of the input
and output buffers. -/
structure World where
  filter : AutoencoderFilter
  errors : List Error
  inputBuf : List ℚ
  outputBuf : List ℚ

/-- Modelled from the spec: "every failure is recorded as a (kind, message)
pair retrievable by the caller through the owning device, and the failing call
returns a no-op result" (section 6). The message text is not modelled. -/
def World.report (w : World) (e : Error) : World :=
  { w with errors := w.errors ++ [e] }

/-- Modelled from the spec: the state machine `Configuring → Committed` of
section 3. The header has no state field; a filter is committed when `commit`
has set both `net` and `transferFunc`. -/
def AutoencoderFilter.committed (f : AutoencoderFilter) : Bool :=
  f.net.isSome && f.transferFunc.isSome

/-- Modelled from the spec: what a call of `setImage` or `set1i` does on a
committed filter. Section 4.5 names two policies, the call "invalidates the
current Network and forces a rebuild on next commit, or is rejected"; the
header has no state field that marks a committed filter, so a call that only
stores the value (the next `commit` rebuilds anyway) is the third behaviour
its fields allow. -/
inductive Policy
  | store
  | invalidate
  | reject
  deriving DecidableEq, Repr

/-- Modelled from the spec: `AutoencoderFilter::set1i` (header line 53, body
not among the sources). "Exactly two boolean-valued named options, `srgb` and
`hdr`, settable before commit; unrecognized option names are a configuration
error" (section 6), in every state; on a committed filter the "same pre-commit
constraint" as for `setImage` applies to the two options (section 4.5), under
the policy given. The flag is the conversion of the `int` to `bool`. -/
def set1i (pol : Policy) (name : String) (value : Int) (w : World) : World :=
  if name = "srgb" ∨ name = "hdr" then
    let f := w.filter
    let f1 : AutoencoderFilter :=
      if name = "srgb" then { f with srgb := decide (value ≠ 0) }
      else { f with hdr := decide (value ≠ 0) }
    if f.committed then
      match pol with
      | Policy.store => { w with filter := f1 }
      | Policy.invalidate => { w with filter := { f1 with net := none } }
      | Policy.reject => w.report Error.InvalidUsage
    else
      { w with filter := f1 }
  else
    w.report Error.ConfigurationError

/-- Modelled from the spec: the variant selection of sections 4.3 and 8, inside
`AutoencoderFilter::buildNet` (header line 59, body not among the sources):
color only selects 3 input channels and `weightData.ldr`, color with albedo
and normal selects 9 input channels and `weightData.ldr_alb_nrm`, a partial
set or a missing weight set is a configuration error. -/
def selectVariant (f : AutoencoderFilter) : Except Error (Nat × Nat) :=
  match f.albedo, f.normal with
  | none, none =>
    match f.weightData.ldr with
    | some wts => Except.ok (3, wts)
    | none => Except.error Error.ConfigurationError
  | some _, some _ =>
    match f.weightData.ldr_alb_nrm with
    | some wts => Except.ok (9, wts)
    | none => Except.error Error.ConfigurationError
  | _, _ => Except.error Error.ConfigurationError

/-- Modelled from the spec: the validations of `commit` and of the network
build that the specification names without fixing them: the combination of the
two flags ("must be validated together at commit time", section 4.2; "invalid
option combination", section 7), the declared weight shapes (section 6), the
sizes that cannot be halved (section 4.3) and the sizes of the other bound
images ("mismatched bindings", section 7). They are a parameter of the model:
a predicate of the filter, the selected input channel count and the selected
weight set; `false` is a configuration error. -/
abbrev BuildChecks : Type :=
  AutoencoderFilter → Nat → Nat → Bool

/-- Modelled from the spec: the body of `AutoencoderFilter::commit` (header
line 54, body not among the sources) before its failures reach the error
channel: it "validates that `color` and `output` are bound, that `output`
dimensions match `color` dimensions, determines the input-set variant, builds
the Transfer Function and the Network" (section 4.5); the build fails with a
configuration error when one of the further validations `checks` fails. -/
def commitCore (checks : BuildChecks) (f : AutoencoderFilter) :
    Except Error AutoencoderFilter :=
  match f.color, f.output with
  | some c, some o =>
    if o.width = c.width ∧ o.height = c.height then
      match selectVariant f with
      | Except.ok (k, wts) =>
        if checks f k wts then
          Except.ok { f with
            transferFunc := some { srgb := f.srgb, hdr := f.hdr }
            net := some { inputC := k, weights := wts, width := c.width, height := c.height } }
        else Except.error Error.ConfigurationError
      | Except.error e => Except.error e
    else Except.error Error.ConfigurationError
  | _, _ => Except.error Error.ConfigurationError

/-- Modelled from the spec: `AutoencoderFilter::commit` as the caller sees it:
a failure is "surfaced to the external device's error channel, not thrown"
(section 4.5) and leaves the filter as it was. -/
def commit (checks : BuildChecks) (w : World) : World :=
  match commitCore checks w.filter with
  | Except.ok f => { w with filter := f }
  | Except.error e => w.report e

/-- Modelled from the spec: `AutoencoderFilter::execute` (header line 55, body
not among the sources). On a committed filter the output buffer receives the
result of the forward pass, a function `forward` of the network, the transfer
function and the input buffer that the sources do not contain; "calling
`execute()` before `commit()` is a usage error reported via the error channel"
(section 4.5), with no write to the output buffer (section 7). -/
def execute (forward : Network → TransferFunction → List ℚ → List ℚ) (w : World) : World :=
  match w.filter.net, w.filter.transferFunc with
  | some n, some t => { w with outputBuf := forward n t w.inputBuf }
  | _, _ => w.report Error.InvalidUsage

/-- The weight sets of a filter that has both, as `RTFilter` supplies them. -/
def bothWeights : WeightData :=
  { ldr := some 0, ldr_alb_nrm := some 1 }

/-- A filter on which nothing is bound yet. -/
def newFilter : AutoencoderFilter :=
  { color := none, albedo := none, normal := none, output := none,
    srgb := false, hdr := false, net := none, transferFunc := none,
    weightData := bothWeights }

/-- The filter of `infer.cpp` after lines 55-59, for a `W x H` image. -/
def inferFilter (W H : Nat) : AutoencoderFilter :=
  { newFilter with
    color := some (colorImage W H)
    albedo := some (albedoImage W H)
    normal := some (normalImage W H)
    output := some (outputImage W H)
    srgb := true }

/-- A world around a filter: no error recorded, the given buffers. -/
def worldOf (f : AutoencoderFilter) (inputBuf outputBuf : List ℚ) : World :=
  { filter := f, errors := [], inputBuf := inputBuf, outputBuf := outputBuf }

/-- A filter with color and output bound to images of different sizes. -/
def mismatchFilter : AutoencoderFilter :=
  { newFilter with
    color := some (colorImage 4 4)
    output := some (outputImage 2 2) }

/-- Further validations that accept every filter. -/
def noChecks : BuildChecks :=
  fun _ _ _ => true

/-- Further validations that accept a filter unless both flags are set. -/
def oneFlagChecks : BuildChecks :=
  fun f _ _ => !(f.srgb && f.hdr)

/-! ## Theorems -/

theorem tol_pos : 0 < tol := by
  unfold tol; norm_num

theorem relErr_eq_reSpec (e a : ℚ) : relErr e a = some (reSpec e a) := by
  unfold relErr reSpec divChecked
  by_cases h1 : |e| < tol ∧ |a| < tol
  · rw [if_pos h1, if_pos h1]
  · rw [if_neg h1, if_neg h1]
    by_cases h2 : e = 0
    · simp [h2]
    · simp [h2]

theorem reSpec_nonneg (e a : ℚ) : 0 ≤ reSpec e a := by
  unfold reSpec
  split_ifs <;> simp [abs_nonneg]

theorem checkStep_eq (n : Int) (m e a : ℚ) :
    checkStep (n, m) e a =
      some (n + (if tol < reSpec e a then 1 else 0), max m (reSpec e a)) := by
  unfold checkStep
  rw [relErr_eq_reSpec]
  simp only [gt_iff_lt, Prod.mk.injEq, Option.some.injEq]
  constructor
  · split_ifs <;> simp
  · rcases lt_or_le m (reSpec e a) with h | h
    · rw [if_pos h, max_eq_right h.le]
    · rw [if_neg (not_lt.mpr h), max_eq_left h]

theorem checkLoop_cons (e a : ℚ) (es as : List ℚ) (st : Int × ℚ) :
    checkLoop (e :: es) (a :: as) st =
      match checkStep st e a with
      | none => none
      | some st1 => checkLoop es as st1 := by
  rfl

theorem checkLoop_eq (es as : List ℚ) (n : Int) (m : ℚ) :
    checkLoop es as (n, m) =
      some (n + (((reList es as).countP fun r => decide (r > tol) : Nat) : Int),
        (reList es as).foldl max m) := by
  induction es generalizing as n m with
  | nil =>
    show some (n, m) = _
    simp [reList]
  | cons e es ih =>
    cases as with
    | nil =>
      show some (n, m) = _
      simp [reList]
    | cons a as =>
      simp only [checkLoop_cons]
      simp only [checkStep_eq]
      simp only [ih]
      have hz : reList (e :: es) (a :: as) = reSpec e a :: reList es as := rfl
      rw [hz]
      simp only [List.foldl_cons, List.countP_cons]
      by_cases h : tol < reSpec e a
      · simp only [h, gt_iff_lt, decide_True, if_true, Nat.cast_add, Nat.cast_one, add_assoc,
          add_comm (1 : Int)]
      · simp only [h, gt_iff_lt, decide_False, if_false, add_zero, Bool.false_eq_true]

theorem le_foldl_max (l : List ℚ) (m : ℚ) : m ≤ l.foldl max m := by
  induction l generalizing m with
  | nil => simp
  | cons x xs ih => exact le_trans (le_max_left m x) (ih (max m x))

theorem mem_le_foldl_max (l : List ℚ) (m : ℚ) : ∀ r ∈ l, r ≤ l.foldl max m := by
  induction l generalizing m with
  | nil => simp
  | cons x xs ih =>
    intro r hr
    rcases List.mem_cons.mp hr with h | h
    · subst h
      exact le_trans (le_max_right m r) (le_foldl_max xs (max m r))
    · exact ih (max m x) r h

theorem foldl_max_mem (l : List ℚ) (m : ℚ) : l.foldl max m = m ∨ l.foldl max m ∈ l := by
  induction l generalizing m with
  | nil => simp
  | cons x xs ih =>
    rw [List.foldl_cons]
    rcases ih (max m x) with h | h
    · rcases max_choice m x with hm | hm
      · left; rw [h, hm]
      · right; rw [h, hm]; exact List.mem_cons_self _ _
    · right; exact List.mem_cons_of_mem _ h

theorem foldl_max_le_iff (l : List ℚ) (m t : ℚ) :
    l.foldl max m ≤ t ↔ m ≤ t ∧ ∀ r ∈ l, r ≤ t := by
  constructor
  · intro h
    exact ⟨le_trans (le_foldl_max l m) h, fun r hr => le_trans (mem_le_foldl_max l m r hr) h⟩
  · rintro ⟨hm, hl⟩
    rcases foldl_max_mem l m with h | h
    · rw [h]; exact hm
    · exact hl _ h

theorem reList_nonneg (es as : List ℚ) : ∀ r ∈ reList es as, 0 ≤ r := by
  induction es generalizing as with
  | nil => simp [reList]
  | cons e es ih =>
    cases as with
    | nil => simp [reList]
    | cons a as =>
      intro r hr
      simp only [reList, List.zipWith_cons_cons, List.mem_cons] at hr
      rcases hr with h | h
      · rw [h]; exact reSpec_nonneg e a
      · exact ih as r h

/-- C8: over exact rationals the check of `infer.cpp` returns `nerr` = the
number of indices whose error `re_i` exceeds `1e-5` and `maxre` = the maximum
of the `re_i` (zero for an empty sequence), where `re_i` is the error worded in
the claim; hence `nerr = 0` exactly when `maxre ≤ 1e-5`. -/
theorem correctnessCheck_spec (ref output : List ℚ) (hlen : ref.length = output.length) :
    ∃ nerr maxre, correctnessCheck ref output = some (nerr, maxre) ∧
      (reList ref output).length = output.length ∧
      nerr = (((reList ref output).countP fun r => decide (r > tol) : Nat) : Int) ∧
      (∀ r ∈ reList ref output, r ≤ maxre) ∧
      (reList ref output = [] → maxre = 0) ∧
      (reList ref output ≠ [] → maxre ∈ reList ref output) ∧
      (nerr = 0 ↔ maxre ≤ tol) := by
  refine ⟨(((reList ref output).countP fun r => decide (r > tol) : Nat) : Int),
    (reList ref output).foldl max 0, ?_, ?_, rfl, ?_, ?_, ?_, ?_⟩
  · unfold correctnessCheck
    rw [checkLoop_eq, zero_add]
  · simp [reList, hlen]
  · exact mem_le_foldl_max _ 0
  · intro h; rw [h]; rfl
  · intro hne
    rcases foldl_max_mem (reList ref output) 0 with h | h
    · rw [h]
      obtain ⟨x, xs, hx⟩ := List.exists_cons_of_ne_nil hne
      have hx0 : x ≤ 0 := by
        have := mem_le_foldl_max (reList ref output) 0 x (by rw [hx]; exact List.mem_cons_self _ _)
        rwa [h] at this
      have hx1 : 0 ≤ x := reList_nonneg ref output x (by rw [hx]; exact List.mem_cons_self _ _)
      have : x = 0 := le_antisymm hx0 hx1
      rw [hx, ← this]; exact List.mem_cons_self _ _
    · exact h
  · rw [foldl_max_le_iff]
    simp only [gt_iff_lt, Nat.cast_eq_zero, List.countP_eq_zero, decide_eq_true_eq, not_lt]
    exact ⟨fun h => ⟨tol_pos.le, h⟩, fun h => h.2⟩

/-- Witness of C8 on a reference `[1, 0, 2]` and an output `[1, 1/2, 2]`. -/
theorem correctnessCheck_spec_witness :
    ([1, 0, 2] : List ℚ).length = ([1, 1/2, 2] : List ℚ).length ∧
    ∃ nerr maxre, correctnessCheck [1, 0, 2] [1, 1/2, 2] = some (nerr, maxre) ∧
      (reList [1, 0, 2] [1, 1/2, 2]).length = ([1, 1/2, 2] : List ℚ).length ∧
      nerr = (((reList [1, 0, 2] [1, 1/2, 2]).countP fun r => decide (r > tol) : Nat) : Int) ∧
      (∀ r ∈ reList [1, 0, 2] [1, 1/2, 2], r ≤ maxre) ∧
      (reList [1, 0, 2] [1, 1/2, 2] = [] → maxre = 0) ∧
      (reList [1, 0, 2] [1, 1/2, 2] ≠ [] → maxre ∈ reList [1, 0, 2] [1, 1/2, 2]) ∧
      (nerr = 0 ↔ maxre ≤ tol) :=
  ⟨rfl, correctnessCheck_spec [1, 0, 2] [1, 1/2, 2] rfl⟩

theorem reSpec_self (e : ℚ) : reSpec e e = 0 := by
  unfold reSpec
  split_ifs <;> simp

theorem reList_self (xs : List ℚ) : ∀ r ∈ reList xs xs, r = 0 := by
  induction xs with
  | nil => simp [reList]
  | cons x xs ih =>
    intro r hr
    simp only [reList, List.zipWith_cons_cons, List.mem_cons] at hr
    rcases hr with h | h
    · rw [h, reSpec_self]
    · exact ih r h

/-- C9: the check accepts an exact match (every `re_i` is 0, so `nerr = 0` and
`maxre = 0`), and the checked division of line 92, which fails on a zero
divisor, never fails inside the check, for one element and for the whole
loop. -/
theorem exact_match_accepted :
    (∀ e : ℚ, relErr e e = some 0) ∧
    (∀ xs : List ℚ, correctnessCheck xs xs = some (0, 0)) ∧
    (∀ a : ℚ, divChecked a 0 = none) ∧
    (∀ e a : ℚ, relErr e a ≠ none) ∧
    (∀ ref output : List ℚ, correctnessCheck ref output ≠ none) := by
  refine ⟨?_, ?_, fun a => if_pos rfl, ?_, ?_⟩
  · intro e; rw [relErr_eq_reSpec, reSpec_self]
  · intro xs
    unfold correctnessCheck
    rw [checkLoop_eq, zero_add]
    have h0 := reList_self xs
    have hc : ((reList xs xs).countP fun r => decide (r > tol)) = 0 := by
      rw [List.countP_eq_zero]
      intro r hr
      rw [h0 r hr]
      simp [tol_pos.le]
    have hm : (reList xs xs).foldl max 0 = 0 := by
      apply le_antisymm
      · rw [foldl_max_le_iff]
        exact ⟨le_refl _, fun r hr => (h0 r hr).le⟩
      · exact le_foldl_max _ 0
    rw [hc, hm]; rfl
  · intro e a; rw [relErr_eq_reSpec]; simp
  · intro ref output
    unfold correctnessCheck
    rw [checkLoop_eq]; simp

theorem lastIndexOf_of_not_mem (c : Char) (s : List Char) (h : c ∉ s) :
    lastIndexOf c s = none := by
  induction s with
  | nil => rfl
  | cons x xs ih =>
    have hx : ¬ x = c := fun e => h (e ▸ List.mem_cons_self _ _)
    have hxs : c ∉ xs := fun m => h (List.mem_cons_of_mem _ m)
    simp only [lastIndexOf, ih hxs, hx, if_false]

theorem lastIndexOf_append (c : Char) (pre post : List Char) (h : c ∉ post) :
    lastIndexOf c (pre ++ c :: post) = some pre.length := by
  induction pre with
  | nil => simp [lastIndexOf, lastIndexOf_of_not_mem c post h]
  | cons x xs ih => simp [lastIndexOf, ih]

theorem substr_zero (s : List Char) (n : Nat) : substr s 0 n = some (s.take n) := by
  unfold substr
  simp only [gt_iff_lt, Nat.not_lt_zero, if_false, List.drop_zero, Nat.sub_zero,
    Option.some.injEq]
  rcases Nat.le_total n s.length with h | h
  · rw [Nat.min_eq_left h]
  · rw [Nat.min_eq_right h, List.take_of_length_le h, List.take_of_length_le (le_refl _)]

/-- C10: with one argument `s` (no reference argument) the reference name is
the part of `s` before its last `'.'` followed by `_ref.tza`, and all of `s`
followed by `_ref.tza` when `s` has no `'.'`; with no argument the names are
`test0.tza` and `test0_ref.tza`; a second argument is taken unchanged. The
length of `s` is below `npos`, as for every `std::string`. -/
theorem refFilename_spec (prog s : List Char) (hs : s.length < npos) :
    (∀ pre post : List Char, s = pre ++ '.' :: post → '.' ∉ post →
      fileNames [prog, s] = some (s, pre ++ "_ref.tza".toList)) ∧
    ('.' ∉ s → fileNames [prog, s] = some (s, s ++ "_ref.tza".toList)) ∧
    fileNames [prog] = some ("test0.tza".toList, "test0_ref.tza".toList) ∧
    (∀ (t : List Char) (rest : List (List Char)),
      fileNames (prog :: s :: t :: rest) = some (s, t)) := by
  refine ⟨?_, ?_, ?_, ?_⟩
  · intro pre post hsp hpost
    subst hsp
    simp [fileNames, find_last_of, lastIndexOf_append _ _ _ hpost, substr_zero]
  · intro hdot
    simp [fileNames, find_last_of, lastIndexOf_of_not_mem _ _ hdot, substr_zero,
      List.take_of_length_le hs.le]
  · rfl
  · intro t rest
    simp [fileNames, substr_zero]

/-- Witness of C10 at the argument `img.v2.tza`. -/
theorem refFilename_spec_witness :
    ("img.v2.tza".toList).length < npos ∧
    ((∀ pre post : List Char, "img.v2.tza".toList = pre ++ '.' :: post → '.' ∉ post →
      fileNames ["infer".toList, "img.v2.tza".toList] =
        some ("img.v2.tza".toList, pre ++ "_ref.tza".toList)) ∧
    ('.' ∉ "img.v2.tza".toList → fileNames ["infer".toList, "img.v2.tza".toList] =
      some ("img.v2.tza".toList, "img.v2.tza".toList ++ "_ref.tza".toList)) ∧
    fileNames ["infer".toList] = some ("test0.tza".toList, "test0_ref.tza".toList) ∧
    (∀ (t : List Char) (rest : List (List Char)),
      fileNames ("infer".toList :: "img.v2.tza".toList :: t :: rest) =
        some ("img.v2.tza".toList, t))) :=
  ⟨by decide, refFilename_spec "infer".toList "img.v2.tza".toList (by decide)⟩

theorem fileNames_examples :
    fileNames ["infer".toList, "img.v2.tza".toList] =
      some ("img.v2.tza".toList, "img.v2_ref.tza".toList) ∧
    fileNames ["infer".toList, "noext".toList] =
      some ("noext".toList, "noext_ref.tza".toList) ∧
    fileNames ["infer".toList, "a.tza".toList, "b.tza".toList] =
      some ("a.tza".toList, "b.tza".toList) := by
  refine ⟨?_, ?_, ?_⟩ <;> rfl

theorem pixel_index_lt (W H x y : Nat) (hx : x < W) (hy : y < H) : y * W + x + 1 ≤ H * W := by
  calc y * W + x + 1 ≤ y * W + W := by omega
    _ = (y + 1) * W := by ring
    _ ≤ H * W := Nat.mul_le_mul_right W hy

theorem pixel_index_unique (W x y x1 y1 : Nat) (hx : x < W) (hx1 : x1 < W)
    (h : y * W + x = y1 * W + x1) : x = x1 ∧ y = y1 := by
  have hW : 0 < W := by omega
  have e1 : (x + W * y) % W = x := by
    rw [Nat.add_mul_mod_self_left, Nat.mod_eq_of_lt hx]
  have e2 : (x1 + W * y1) % W = x1 := by
    rw [Nat.add_mul_mod_self_left, Nat.mod_eq_of_lt hx1]
  have e3 : (x + W * y) / W = y := by
    rw [Nat.add_mul_div_left _ _ hW, Nat.div_eq_of_lt hx, zero_add]
  have e4 : (x1 + W * y1) / W = y1 := by
    rw [Nat.add_mul_div_left _ _ hW, Nat.div_eq_of_lt hx1, zero_add]
  have h2 : x + W * y = x1 + W * y1 := by
    have a1 : W * y = y * W := Nat.mul_comm _ _
    have a2 : W * y1 = y1 * W := Nat.mul_comm _ _
    omega
  rw [h2] at e1 e3
  exact ⟨e1.symm.trans e2, e3.symm.trans e4⟩

/-- C7: the bindings of `infer.cpp` for a `W x H` image. The four descriptors
satisfy the Image Descriptor invariant; for a pixel `(x, y)` the byte ranges of
color, albedo and normal are pairwise disjoint, lie inside the `H*W*9`-float
input buffer and together are the 36-byte record of the pixel; through the
output descriptor every float of the `H*W*3` output buffer is component `c` of
exactly one pixel, and every pixel lies inside that buffer. -/
theorem infer_bindings (W H x y : Nat) (hW : 1 ≤ W) (_hH : 1 ≤ H) (hx : x < W) (hy : y < H) :
    (formatSize Format.Float3 = 12 ∧
      ((colorImage W H).byteOffset = 0 ∧ (albedoImage W H).byteOffset = 12 ∧
        (normalImage W H).byteOffset = 24 ∧ (outputImage W H).byteOffset = 0) ∧
      ((colorImage W H).bytePixelStride = 36 ∧ (albedoImage W H).bytePixelStride = 36 ∧
        (normalImage W H).bytePixelStride = 36 ∧ (outputImage W H).bytePixelStride = 12) ∧
      ((colorImage W H).byteRowStride = 36 * W ∧ (albedoImage W H).byteRowStride = 36 * W ∧
        (normalImage W H).byteRowStride = 36 * W ∧ (outputImage W H).byteRowStride = 12 * W)) ∧
    ((colorImage W H).valid ∧ (albedoImage W H).valid ∧ (normalImage W H).valid ∧
      (outputImage W H).valid) ∧
    (Disjoint ((colorImage W H).pixelBytes x y) ((albedoImage W H).pixelBytes x y) ∧
      Disjoint ((colorImage W H).pixelBytes x y) ((normalImage W H).pixelBytes x y) ∧
      Disjoint ((albedoImage W H).pixelBytes x y) ((normalImage W H).pixelBytes x y)) ∧
    ((colorImage W H).pixelBytes x y ∪ (albedoImage W H).pixelBytes x y ∪
      (normalImage W H).pixelBytes x y = inputRecord W x y) ∧
    inputRecord W x y ⊆ Finset.range (H * W * 9 * F) ∧
    (outputImage W H).pixelBytes x y ⊆ Finset.range (H * W * 3 * F) ∧
    (∀ j, j < H * W * 3 → ∃! p : Nat × Nat × Nat, p.1 < W ∧ p.2.1 < H ∧ p.2.2 < 3 ∧
      (outputImage W H).pixelAddr p.1 p.2.1 + p.2.2 * F = j * F) := by
  have hidx := pixel_index_lt W H x y hx hy
  have e1 : y * (36 * W) = 36 * (y * W) := by ring
  have e2 : y * (12 * W) = 12 * (y * W) := by ring
  have e3 : H * W * 9 * 4 = 36 * (H * W) := by ring
  have e4 : H * W * 3 * 4 = 12 * (H * W) := by ring
  refine ⟨⟨rfl, ⟨rfl, rfl, rfl, rfl⟩, ⟨rfl, rfl, rfl, rfl⟩, ⟨rfl, rfl, rfl, rfl⟩⟩,
    ?_, ?_, ?_, ?_, ?_, ?_⟩
  · simp [Image.valid, colorImage, albedoImage, normalImage, outputImage, mkImage, formatSize, F]
  · simp only [Image.pixelBytes, Image.pixelAddr, colorImage, albedoImage, normalImage, mkImage,
      formatSize, F, Finset.disjoint_left, Finset.mem_Ico]
    refine ⟨?_, ?_, ?_⟩ <;> intro a <;> omega
  · ext a
    simp only [Image.pixelBytes, Image.pixelAddr, colorImage, albedoImage, normalImage, mkImage,
      formatSize, F, inputRecord, Finset.mem_union, Finset.mem_Ico]
    norm_num
    rw [e1]
    have e5 : (y * W + x) * 36 = 36 * (y * W) + x * 36 := by ring
    rw [e5]
    omega
  · intro a
    simp only [inputRecord, F, Finset.mem_Ico, Finset.mem_range]
    norm_num
    rw [e3]
    have e5 : (y * W + x) * 36 = 36 * (y * W) + x * 36 := by ring
    rw [e5]
    omega
  · intro a
    simp only [Image.pixelBytes, Image.pixelAddr, outputImage, mkImage, formatSize, F,
      Finset.mem_Ico, Finset.mem_range]
    norm_num
    rw [e2, e4]
    omega
  · intro j hj
    have hWpos : 0 < W := hW
    have hq : j / 3 < H * W := by omega
    have hqy : j / 3 / W < H := by
      apply Nat.div_lt_of_lt_mul
      rw [Nat.mul_comm]; exact hq
    have hdm : W * (j / 3 / W) + j / 3 % W = j / 3 := Nat.div_add_mod _ _
    have hcm : j / 3 / W * W = W * (j / 3 / W) := Nat.mul_comm _ _
    refine ⟨(j / 3 % W, j / 3 / W, j % 3), ⟨Nat.mod_lt _ hWpos, hqy, Nat.mod_lt _ (by norm_num), ?_⟩,
      ?_⟩
    · simp only [Image.pixelAddr, outputImage, mkImage, F]
      have e6 : j / 3 / W * (3 * 4 * W) = 12 * (j / 3 / W * W) := by ring
      rw [e6]
      omega
    · rintro ⟨x1, y1, c1⟩ ⟨h1, h2, h3, h4⟩
      simp only [Image.pixelAddr, outputImage, mkImage, F] at h1 h2 h3 h4
      have e6 : y1 * (3 * 4 * W) = 12 * (y1 * W) := by ring
      rw [e6] at h4
      have hc : c1 = j % 3 := by omega
      have hp : y1 * W + x1 = j / 3 / W * W + j / 3 % W := by omega
      obtain ⟨hx1, hy1⟩ := pixel_index_unique W x1 y1 _ _ h1 (Nat.mod_lt _ hWpos) hp
      rw [hc, hx1, hy1]

/-- Witness of C7: pixel `(1, 1)` of a `2 x 2` image. -/
theorem infer_bindings_witness :
    1 ≤ 2 ∧ 1 ≤ 2 ∧ 1 < 2 ∧ 1 < 2 ∧
    ((formatSize Format.Float3 = 12 ∧
      ((colorImage 2 2).byteOffset = 0 ∧ (albedoImage 2 2).byteOffset = 12 ∧
        (normalImage 2 2).byteOffset = 24 ∧ (outputImage 2 2).byteOffset = 0) ∧
      ((colorImage 2 2).bytePixelStride = 36 ∧ (albedoImage 2 2).bytePixelStride = 36 ∧
        (normalImage 2 2).bytePixelStride = 36 ∧ (outputImage 2 2).bytePixelStride = 12) ∧
      ((colorImage 2 2).byteRowStride = 36 * 2 ∧ (albedoImage 2 2).byteRowStride = 36 * 2 ∧
        (normalImage 2 2).byteRowStride = 36 * 2 ∧ (outputImage 2 2).byteRowStride = 12 * 2)) ∧
    ((colorImage 2 2).valid ∧ (albedoImage 2 2).valid ∧ (normalImage 2 2).valid ∧
      (outputImage 2 2).valid) ∧
    (Disjoint ((colorImage 2 2).pixelBytes 1 1) ((albedoImage 2 2).pixelBytes 1 1) ∧
      Disjoint ((colorImage 2 2).pixelBytes 1 1) ((normalImage 2 2).pixelBytes 1 1) ∧
      Disjoint ((albedoImage 2 2).pixelBytes 1 1) ((normalImage 2 2).pixelBytes 1 1)) ∧
    ((colorImage 2 2).pixelBytes 1 1 ∪ (albedoImage 2 2).pixelBytes 1 1 ∪
      (normalImage 2 2).pixelBytes 1 1 = inputRecord 2 1 1) ∧
    inputRecord 2 1 1 ⊆ Finset.range (2 * 2 * 9 * F) ∧
    (outputImage 2 2).pixelBytes 1 1 ⊆ Finset.range (2 * 2 * 3 * F) ∧
    (∀ j, j < 2 * 2 * 3 → ∃! p : Nat × Nat × Nat, p.1 < 2 ∧ p.2.1 < 2 ∧ p.2.2 < 3 ∧
      (outputImage 2 2).pixelAddr p.1 p.2.1 + p.2.2 * F = j * F)) :=
  ⟨by decide, by decide, by decide, by decide,
    infer_bindings 2 2 1 1 (by decide) (by decide) (by decide) (by decide)⟩

theorem pixelAddr_examples :
    (colorImage 2 2).pixelAddr 1 1 = 108 ∧ (albedoImage 2 2).pixelAddr 1 1 = 120 ∧
    (normalImage 2 2).pixelAddr 1 1 = 132 ∧ (outputImage 2 2).pixelAddr 1 1 = 36 ∧
    (colorImage 2 2).byteRowStride = 72 ∧ (outputImage 2 2).byteRowStride = 24 := by
  decide

/-! ### The filter -/

theorem commitCore_ok (checks : BuildChecks) (f : AutoencoderFilter) (c o : Image)
    (k wts : Nat) (hc : f.color = some c) (ho : f.output = some o)
    (hw : o.width = c.width) (hh : o.height = c.height)
    (hv : selectVariant f = Except.ok (k, wts)) (hk : checks f k wts = true) :
    commitCore checks f = Except.ok { f with
      transferFunc := some { srgb := f.srgb, hdr := f.hdr }
      net := some { inputC := k, weights := wts, width := c.width, height := c.height } } := by
  unfold commitCore
  rw [hc, ho]
  simp only [hw, hh, and_self, if_true, hv, hk]

theorem selectVariant_partial (f : AutoencoderFilter)
    (h : f.albedo.isSome ≠ f.normal.isSome) :
    selectVariant f = Except.error Error.ConfigurationError := by
  unfold selectVariant
  cases ha : f.albedo <;> cases hn : f.normal <;> simp_all

theorem selectVariant_error (f : AutoencoderFilter) (e : Error)
    (h : selectVariant f = Except.error e) : e = Error.ConfigurationError := by
  unfold selectVariant at h
  cases ha : f.albedo <;> cases hn : f.normal <;> rw [ha, hn] at h
  · cases hl : f.weightData.ldr <;> rw [hl] at h <;> simp at h
    exact h.symm
  · simp at h; exact h.symm
  · simp at h; exact h.symm
  · cases hl : f.weightData.ldr_alb_nrm <;> rw [hl] at h <;> simp at h
    exact h.symm

theorem selectVariant_color_only (f : AutoencoderFilter) (k wts : Nat)
    (ha : f.albedo = none) (hn : f.normal = none)
    (h : selectVariant f = Except.ok (k, wts)) :
    k = 3 ∧ f.weightData.ldr = some wts := by
  unfold selectVariant at h
  rw [ha, hn] at h
  cases hl : f.weightData.ldr with
  | none => rw [hl] at h; simp at h
  | some v =>
    rw [hl] at h
    simp only [Except.ok.injEq, Prod.mk.injEq] at h
    exact ⟨h.1.symm, by rw [h.2]⟩

theorem selectVariant_all (f : AutoencoderFilter) (a n : Image) (k wts : Nat)
    (ha : f.albedo = some a) (hn : f.normal = some n)
    (h : selectVariant f = Except.ok (k, wts)) :
    k = 9 ∧ f.weightData.ldr_alb_nrm = some wts := by
  unfold selectVariant at h
  rw [ha, hn] at h
  cases hl : f.weightData.ldr_alb_nrm with
  | none => rw [hl] at h; simp at h
  | some v =>
    rw [hl] at h
    simp only [Except.ok.injEq, Prod.mk.injEq] at h
    exact ⟨h.1.symm, by rw [h.2]⟩

theorem commitCore_error (checks : BuildChecks) (f : AutoencoderFilter) (e : Error)
    (h : commitCore checks f = Except.error e) : e = Error.ConfigurationError := by
  unfold commitCore at h
  cases hc : f.color <;> cases ho : f.output <;> rw [hc, ho] at h
  · simp at h; exact h.symm
  · simp at h; exact h.symm
  · simp at h; exact h.symm
  · simp only at h
    split_ifs at h with hd
    · cases hv : selectVariant f with
      | error e1 =>
        rw [hv] at h
        simp only [Except.error.injEq] at h
        rw [← h]
        exact selectVariant_error f e1 hv
      | ok kw =>
        rw [hv] at h
        simp only at h
        split_ifs at h
        simp at h; exact h.symm
    · simp at h; exact h.symm

theorem commit_of_error (checks : BuildChecks) (w : World)
    (h : commitCore checks w.filter = Except.error Error.ConfigurationError) :
    commit checks w = w.report Error.ConfigurationError := by
  unfold commit
  rw [h]

theorem commit_partial (checks : BuildChecks) (w : World)
    (h : w.filter.albedo.isSome ≠ w.filter.normal.isSome) :
    commit checks w = w.report Error.ConfigurationError := by
  apply commit_of_error
  have hv := selectVariant_partial w.filter h
  unfold commitCore
  cases hc : w.filter.color <;> cases ho : w.filter.output <;> simp only [hv]
  split_ifs <;> rfl

theorem commit_unbound_or_mismatch (checks : BuildChecks) (w : World)
    (h : w.filter.color = none ∨ w.filter.output = none ∨
      ∃ c o, w.filter.color = some c ∧ w.filter.output = some o ∧
        (o.width ≠ c.width ∨ o.height ≠ c.height)) :
    commit checks w = w.report Error.ConfigurationError := by
  apply commit_of_error
  unfold commitCore
  rcases h with h | h | ⟨c, o, hc, ho, hd⟩
  · rw [h]
  · rw [h]; cases w.filter.color <;> rfl
  · rw [hc, ho]
    have hne : ¬ (o.width = c.width ∧ o.height = c.height) := by
      rintro ⟨h1, h2⟩
      rcases hd with hd | hd
      · exact hd h1
      · exact hd h2
    simp only [hne, if_false]

theorem commit_ok_inv (checks : BuildChecks) (w : World)
    (hok : (commit checks w).errors = w.errors) :
    ∃ (c o : Image) (k wts : Nat), w.filter.color = some c ∧ w.filter.output = some o ∧
      o.width = c.width ∧ o.height = c.height ∧
      selectVariant w.filter = Except.ok (k, wts) ∧ checks w.filter k wts = true ∧
      commit checks w = { w with filter := { w.filter with
        transferFunc := some { srgb := w.filter.srgb, hdr := w.filter.hdr }
        net := some { inputC := k, weights := wts, width := c.width, height := c.height } } } := by
  cases hcore : commitCore checks w.filter with
  | error e =>
    have : (commit checks w).errors = w.errors ++ [e] := by
      unfold commit; rw [hcore]; rfl
    rw [this] at hok
    simp at hok
  | ok f =>
    have hcm : commit checks w = { w with filter := f } := by
      unfold commit; rw [hcore]
    unfold commitCore at hcore
    cases hc : w.filter.color with
    | none => rw [hc] at hcore; simp at hcore
    | some c =>
      cases ho : w.filter.output with
      | none => rw [hc, ho] at hcore; simp at hcore
      | some o =>
        rw [hc, ho] at hcore
        simp only at hcore
        split_ifs at hcore with hd
        cases hv : selectVariant w.filter with
        | error e => rw [hv] at hcore; simp at hcore
        | ok kw =>
          obtain ⟨k, wts⟩ := kw
          rw [hv] at hcore
          simp only at hcore
          split_ifs at hcore with hk
          simp only [Except.ok.injEq] at hcore
          refine ⟨c, o, k, wts, rfl, rfl, hd.1, hd.2, rfl, hk, ?_⟩
          unfold commit
          rw [commitCore_ok checks w.filter c o k wts hc ho hd.1 hd.2 hv hk]

/-- C1: variant selection at `commit`, for every filter state and whatever the
further validations of the build are. If neither albedo nor normal is bound,
the network `commit` builds (whenever it records no error) is the
3-input-channel one from `weightData.ldr`, and it is built as soon as color and
output are bound with equal sizes, that weight set is present and the further
validations pass; if albedo and normal are both bound, the same holds with the
9-input-channel network from `weightData.ldr_alb_nrm`; if exactly one of them
is bound, `commit` records a `ConfigurationError` and builds no network. -/
theorem commit_selects_variant (checks : BuildChecks) (w : World) :
    (w.filter.albedo = none → w.filter.normal = none →
      ((commit checks w).errors = w.errors →
        ∃ (c : Image) (wts : Nat), w.filter.color = some c ∧
          w.filter.weightData.ldr = some wts ∧
          commit checks w = { w with filter := { w.filter with
            transferFunc := some { srgb := w.filter.srgb, hdr := w.filter.hdr }
            net := some
              { inputC := 3, weights := wts, width := c.width, height := c.height } } }) ∧
      (∀ (c o : Image) (wts : Nat), w.filter.color = some c → w.filter.output = some o →
        o.width = c.width → o.height = c.height → w.filter.weightData.ldr = some wts →
        checks w.filter 3 wts = true →
        commit checks w = { w with filter := { w.filter with
          transferFunc := some { srgb := w.filter.srgb, hdr := w.filter.hdr }
          net := some
            { inputC := 3, weights := wts, width := c.width, height := c.height } } })) ∧
    (∀ a n : Image, w.filter.albedo = some a → w.filter.normal = some n →
      ((commit checks w).errors = w.errors →
        ∃ (c : Image) (wts : Nat), w.filter.color = some c ∧
          w.filter.weightData.ldr_alb_nrm = some wts ∧
          commit checks w = { w with filter := { w.filter with
            transferFunc := some { srgb := w.filter.srgb, hdr := w.filter.hdr }
            net := some
              { inputC := 9, weights := wts, width := c.width, height := c.height } } }) ∧
      (∀ (c o : Image) (wts : Nat), w.filter.color = some c → w.filter.output = some o →
        o.width = c.width → o.height = c.height →
        w.filter.weightData.ldr_alb_nrm = some wts → checks w.filter 9 wts = true →
        commit checks w = { w with filter := { w.filter with
          transferFunc := some { srgb := w.filter.srgb, hdr := w.filter.hdr }
          net := some
            { inputC := 9, weights := wts, width := c.width, height := c.height } } })) ∧
    (w.filter.albedo.isSome ≠ w.filter.normal.isSome →
      commit checks w = w.report Error.ConfigurationError ∧
      (commit checks w).errors = w.errors ++ [Error.ConfigurationError] ∧
      (commit checks w).filter = w.filter) := by
  refine ⟨?_, ?_, ?_⟩
  · intro ha hn
    constructor
    · intro hok
      obtain ⟨c, o, k, wts, hc, _, _, _, hv, _, hcm⟩ := commit_ok_inv checks w hok
      obtain ⟨hk3, hl⟩ := selectVariant_color_only w.filter k wts ha hn hv
      subst hk3
      exact ⟨c, wts, hc, hl, hcm⟩
    · intro c o wts hc ho hw hh hl hk
      have hv : selectVariant w.filter = Except.ok (3, wts) := by
        unfold selectVariant; rw [ha, hn, hl]
      unfold commit
      rw [commitCore_ok checks w.filter c o 3 wts hc ho hw hh hv hk]
  · intro a n ha hn
    constructor
    · intro hok
      obtain ⟨c, o, k, wts, hc, _, _, _, hv, _, hcm⟩ := commit_ok_inv checks w hok
      obtain ⟨hk9, hl⟩ := selectVariant_all w.filter a n k wts ha hn hv
      subst hk9
      exact ⟨c, wts, hc, hl, hcm⟩
    · intro c o wts hc ho hw hh hl hk
      have hv : selectVariant w.filter = Except.ok (9, wts) := by
        unfold selectVariant; rw [ha, hn, hl]
      unfold commit
      rw [commitCore_ok checks w.filter c o 9 wts hc ho hw hh hv hk]
  · intro h
    have hcm := commit_partial checks w h
    rw [hcm]
    exact ⟨rfl, rfl, rfl⟩

/-- Witness of C1: the filter of `infer.cpp` for a `4 x 4` image, with the
validation that rejects both flags set, gets the 9-input-channel network. -/
theorem commit_selects_variant_witness :
    commit oneFlagChecks (worldOf (inferFilter 4 4) [] []) =
      { worldOf (inferFilter 4 4) [] [] with filter := { inferFilter 4 4 with
        transferFunc := some { srgb := true, hdr := false }
        net := some { inputC := 9, weights := 1, width := 4, height := 4 } } } :=
  ((commit_selects_variant oneFlagChecks (worldOf (inferFilter 4 4) [] [])).2.1
    (albedoImage 4 4) (normalImage 4 4) rfl rfl).2
    (colorImage 4 4) (outputImage 4 4) 1 rfl rfl rfl rfl rfl rfl

theorem commit_checks_examples :
    commit oneFlagChecks (worldOf { inferFilter 4 4 with hdr := true } [] []) =
      (worldOf { inferFilter 4 4 with hdr := true } [] []).report Error.ConfigurationError ∧
    (commit noChecks (worldOf { newFilter with
        color := some (colorImage 4 4), output := some (outputImage 4 4) } [] [])).filter.net =
      some { inputC := 3, weights := 0, width := 4, height := 4 } ∧
    (commit noChecks (worldOf { newFilter with
        color := some (colorImage 4 4), albedo := some (albedoImage 4 4),
        output := some (outputImage 4 4) } [] [])).errors = [Error.ConfigurationError] := by
  refine ⟨?_, ?_, ?_⟩ <;> rfl

/-- C3: `commit` records no error only if color and output are bound with
equal width and height, and then both the network and the transfer function
are set; if color or output is unbound or their sizes differ, `commit` records
a `ConfigurationError` and changes nothing else, so `net` and `transferFunc`
stay unset when they were; `commit` always returns, with no error or with this
one recorded. This holds whatever the further validations of the build are. -/
theorem commit_needs_color_output (checks : BuildChecks) (w : World) :
    ((commit checks w).errors = w.errors →
      ∃ c o, w.filter.color = some c ∧ w.filter.output = some o ∧
        o.width = c.width ∧ o.height = c.height ∧
        (commit checks w).filter.net ≠ none ∧ (commit checks w).filter.transferFunc ≠ none ∧
        (commit checks w).filter.committed = true) ∧
    ((w.filter.color = none ∨ w.filter.output = none ∨
      ∃ c o, w.filter.color = some c ∧ w.filter.output = some o ∧
        (o.width ≠ c.width ∨ o.height ≠ c.height)) →
      commit checks w = w.report Error.ConfigurationError ∧
      (commit checks w).errors = w.errors ++ [Error.ConfigurationError] ∧
      (commit checks w).filter = w.filter ∧ (commit checks w).outputBuf = w.outputBuf ∧
      (w.filter.net = none → w.filter.transferFunc = none →
        (commit checks w).filter.net = none ∧ (commit checks w).filter.transferFunc = none ∧
        (commit checks w).filter.committed = false)) ∧
    ((commit checks w).errors = w.errors ∨
      commit checks w = w.report Error.ConfigurationError) := by
  refine ⟨?_, ?_, ?_⟩
  · intro hok
    obtain ⟨c, o, k, wts, hc, ho, hw, hh, _, _, hcm⟩ := commit_ok_inv checks w hok
    refine ⟨c, o, hc, ho, hw, hh, ?_, ?_, ?_⟩
    · rw [hcm]; simp
    · rw [hcm]; simp
    · rw [hcm]; simp [AutoencoderFilter.committed]
  · intro h
    have hcm := commit_unbound_or_mismatch checks w h
    refine ⟨hcm, ?_, ?_, ?_, ?_⟩
    · rw [hcm]; rfl
    · rw [hcm]; rfl
    · rw [hcm]; rfl
    · intro hn ht
      rw [hcm]
      refine ⟨hn, ht, ?_⟩
      simp [World.report, AutoencoderFilter.committed, hn]
  · cases hcore : commitCore checks w.filter with
    | error e =>
      right
      have he := commitCore_error checks w.filter e hcore
      subst he
      exact commit_of_error checks w hcore
    | ok f =>
      left
      unfold commit; rw [hcore]

/-- Witness of C3: a `2 x 2` output bound against a `4 x 4` color. -/
theorem commit_needs_color_output_witness :
    commit noChecks (worldOf mismatchFilter [] []) =
      (worldOf mismatchFilter [] []).report Error.ConfigurationError ∧
    (commit noChecks (worldOf mismatchFilter [] [])).errors = [] ++ [Error.ConfigurationError] ∧
    (commit noChecks (worldOf mismatchFilter [] [])).filter = mismatchFilter ∧
    (commit noChecks (worldOf mismatchFilter [] [])).outputBuf = [] ∧
    (mismatchFilter.net = none → mismatchFilter.transferFunc = none →
      (commit noChecks (worldOf mismatchFilter [] [])).filter.net = none ∧
      (commit noChecks (worldOf mismatchFilter [] [])).filter.transferFunc = none ∧
      (commit noChecks (worldOf mismatchFilter [] [])).filter.committed = false) :=
  (commit_needs_color_output noChecks (worldOf mismatchFilter [] [])).2.1
    (Or.inr (Or.inr ⟨colorImage 4 4, outputImage 2 2, rfl, rfl, Or.inl (by decide)⟩))

/-- C2: on a filter whose `net` and `transferFunc` are unset, `execute` records
an `InvalidUsage` error and changes nothing else: the output buffer, the input
buffer and every field of the filter are as before, whatever the forward pass
of a built network would compute. -/
theorem execute_before_commit (forward : Network → TransferFunction → List ℚ → List ℚ)
    (w : World) (hn : w.filter.net = none) (ht : w.filter.transferFunc = none) :
    execute forward w = w.report Error.InvalidUsage ∧
    (execute forward w).errors = w.errors ++ [Error.InvalidUsage] ∧
    (execute forward w).outputBuf = w.outputBuf ∧
    (execute forward w).inputBuf = w.inputBuf ∧
    (execute forward w).filter = w.filter := by
  have h : execute forward w = w.report Error.InvalidUsage := by
    unfold execute
    rw [hn, ht]
  rw [h]
  exact ⟨rfl, rfl, rfl, rfl, rfl⟩

/-- Witness of C2: the images of `infer.cpp` bound, `commit` not called, an
output buffer holding `[7, 8, 9]`. -/
theorem execute_before_commit_witness :
    (inferFilter 1 1).net = none ∧ (inferFilter 1 1).transferFunc = none ∧
    (execute (fun _ _ _ => []) (worldOf (inferFilter 1 1) [1, 2, 3] [7, 8, 9]) =
      (worldOf (inferFilter 1 1) [1, 2, 3] [7, 8, 9]).report Error.InvalidUsage ∧
    (execute (fun _ _ _ => []) (worldOf (inferFilter 1 1) [1, 2, 3] [7, 8, 9])).errors =
      [] ++ [Error.InvalidUsage] ∧
    (execute (fun _ _ _ => []) (worldOf (inferFilter 1 1) [1, 2, 3] [7, 8, 9])).outputBuf =
      [7, 8, 9] ∧
    (execute (fun _ _ _ => []) (worldOf (inferFilter 1 1) [1, 2, 3] [7, 8, 9])).inputBuf =
      [1, 2, 3] ∧
    (execute (fun _ _ _ => []) (worldOf (inferFilter 1 1) [1, 2, 3] [7, 8, 9])).filter =
      inferFilter 1 1) :=
  ⟨rfl, rfl, execute_before_commit (fun _ _ _ => [])
    (worldOf (inferFilter 1 1) [1, 2, 3] [7, 8, 9]) rfl rfl⟩

/-- C6: the option surface of `set1i`, under each policy for committed
filters. Before commit, `set1i("srgb", v)` sets only the `srgb` flag and
`set1i("hdr", v)` only the `hdr` flag, to `v != 0`, and nothing else changes;
under the storing policy this holds in every state; in every state every other
name records a `ConfigurationError` and changes no field. -/
theorem set1i_option_surface (pol : Policy) (name : String) (value : Int) (w : World) :
    (w.filter.committed = false →
      set1i pol "srgb" value w =
        { w with filter := { w.filter with srgb := decide (value ≠ 0) } } ∧
      set1i pol "hdr" value w =
        { w with filter := { w.filter with hdr := decide (value ≠ 0) } }) ∧
    (set1i Policy.store "srgb" value w =
        { w with filter := { w.filter with srgb := decide (value ≠ 0) } } ∧
      set1i Policy.store "hdr" value w =
        { w with filter := { w.filter with hdr := decide (value ≠ 0) } }) ∧
    (name ≠ "srgb" → name ≠ "hdr" →
      set1i pol name value w = w.report Error.ConfigurationError ∧
      (set1i pol name value w).filter = w.filter ∧
      (set1i pol name value w).errors = w.errors ++ [Error.ConfigurationError]) := by
  refine ⟨?_, ?_, ?_⟩
  · intro hc
    constructor
    · simp [set1i, hc]
    · simp [set1i, hc]
  · cases hc : w.filter.committed
    · constructor
      · simp [set1i, hc]
      · simp [set1i, hc]
    · constructor
      · simp [set1i, hc]
      · simp [set1i, hc]
  · intro h1 h2
    have h : set1i pol name value w = w.report Error.ConfigurationError := by
      simp [set1i, h1, h2]
    rw [h]
    exact ⟨rfl, rfl, rfl⟩

/-- Witness of C6: `set1i("srgb", 1)` of `infer.cpp` line 59 on the filter with
its four images bound and not yet committed, and the name `gamma`. -/
theorem set1i_option_surface_witness :
    ({ inferFilter 4 4 with srgb := false } : AutoencoderFilter).committed = false ∧
    (set1i Policy.reject "srgb" 1 (worldOf { inferFilter 4 4 with srgb := false } [] []) =
      worldOf (inferFilter 4 4) [] []) ∧
    "gamma" ≠ "srgb" ∧ "gamma" ≠ "hdr" ∧
    set1i Policy.reject "gamma" 1 (worldOf (inferFilter 4 4) [] []) =
      (worldOf (inferFilter 4 4) [] []).report Error.ConfigurationError :=
  ⟨rfl,
    ((set1i_option_surface Policy.reject "gamma" 1
      (worldOf { inferFilter 4 4 with srgb := false } [] [])).1 rfl).1,
    by decide, by decide,
    ((set1i_option_surface Policy.reject "gamma" 1
      (worldOf (inferFilter 4 4) [] [])).2.2 (by decide) (by decide)).1⟩

end Oidn
